import Mathlib

/-!
# Verification of the Skyline Trips vacation application

This development gives a shallow embedding of the behavioural core of the
Skyline Trips web application (frontend Redux state, backend services,
query building, pagination, serialization and reporting) and proves the
specified properties about it.

Conventions of the embedding:
* JavaScript `Date` values are epoch milliseconds, modelled as `Int`.
* MongoDB ObjectIds and user/vacation identifiers are `String`s.
* Optional TypeScript fields (`likesCount?: number`) are `Option`s.
* Fallible service methods return `Except ClientError`; their observable
  side effects (database writes, file-store and cloud-asset operations)
  are returned as an explicit `Effect` trace in execution order.
* Mongoose schema validation (`ValidationError.validate`) is abstracted
  as a boolean `schemaOk` input to the services that invoke it.
-/

/-! ## Frontend: Redux vacation slice (frontend/src/Redux/VacationSlice.ts)

`VacationModel` is the client-side model; `likedByMe` and `likesCount`
are optional fields, matching `likedByMe?: boolean` and
`likesCount?: number` in `frontend/src/Models/VacationModel.ts`.
-/

namespace Frontend

structure VacationModel where
  _id : String
  destination : String
  likedByMe : Option Bool
  likesCount : Option Int
  deriving DecidableEq, Repr

/-- The per-element body of the `state.map` in `toggleLikeOptimistic`:
for the matching vacation it flips `likedByMe` (JS `!vacation.likedByMe`,
where an absent field reads as `false`) and adjusts the likes count by
`+1`/`-1`, floored at `0` by `Math.max(0, (vacation.likesCount ?? 0) + ...)`. -/
def toggleOne (payload : String) (vacation : VacationModel) : VacationModel :=
  if vacation._id ≠ payload then vacation
  else
    let isLikedByMe := !(vacation.likedByMe.getD false)
    let nextLikesCount :=
      max 0 ((vacation.likesCount.getD 0) + (if isLikedByMe then 1 else -1))
    { vacation with likedByMe := some isLikedByMe, likesCount := some nextLikesCount }

/-- Redux reducer `toggleLikeOptimistic`: maps `toggleOne` over the list. -/
def toggleLikeOptimistic (state : List VacationModel) (payload : String) :
    List VacationModel :=
  state.map (toggleOne payload)

/-- A client-side vacation whose optional like fields are present and
mutually consistent: the count is non-negative, and at least `1`
whenever the vacation is marked as liked by the current user. -/
def likeConsistent (v : VacationModel) : Prop :=
  ∃ b c, v.likedByMe = some b ∧ v.likesCount = some c ∧ 0 ≤ c ∧ (b = true → 1 ≤ c)

theorem toggleOne_toggleOne (payload : String) (v : VacationModel)
    (h : v._id = payload → likeConsistent v) :
    toggleOne payload (toggleOne payload v) = v := by
  by_cases hid : v._id = payload
  · obtain ⟨b, c, hb, hc, hc0, hbc⟩ := h hid
    obtain ⟨id, dest, lb, lc⟩ := v
    simp only [VacationModel.likedByMe] at hb
    simp only [VacationModel.likesCount] at hc
    subst hb hc
    simp only [VacationModel._id] at hid
    subst hid
    cases b with
    | false =>
        simp [toggleOne, sup_eq_max]
        omega
    | true =>
        have h1 : 1 ≤ c := hbc rfl
        simp [toggleOne, sup_eq_max]
        omega
  · simp [toggleOne, hid]

/-- C1 as stated is refuted at a concrete list: a vacation with
`likedByMe = true` but `likesCount = 0` (the count floor `Math.max(0, ·)`
makes the two toggles asymmetric there). -/
def vacationLikedZero : VacationModel :=
  { _id := "a", destination := "Paris", likedByMe := some true, likesCount := some 0 }

/-- C1 (counterexample): applying `toggleLikeOptimistic` twice to the
vacation with id `"a"` in the list `[vacationLikedZero]` does not restore
the pre-toggle state: the first toggle floors the count at `0`, so the
rollback toggle raises it to `1`. -/
theorem toggle_twice_not_involutive :
    toggleLikeOptimistic (toggleLikeOptimistic [vacationLikedZero] "a") "a" ≠
      [vacationLikedZero] := by
  decide

/-- C1 (amended): if every vacation in the list carrying the targeted id has
its `likedByMe` and `likesCount` fields present and consistent
(count non-negative, and positive whenever `likedByMe` is true), then
applying the optimistic toggle twice in succession — as the failure path of
`toggleLike` does: once optimistically, once as rollback — restores the
entire list, in particular that vacation's `likedByMe` and `likesCount`,
to exactly the pre-toggle values. -/
theorem toggle_twice_rollback (state : List VacationModel) (payload : String)
    (h : ∀ v ∈ state, v._id = payload → likeConsistent v) :
    toggleLikeOptimistic (toggleLikeOptimistic state payload) payload = state := by
  unfold toggleLikeOptimistic
  rw [List.map_map]
  induction state with
  | nil => rfl
  | cons v rest ih =>
      rw [List.map_cons]
      have hv := h v (List.mem_cons_self v rest)
      rw [Function.comp_apply, toggleOne_toggleOne payload v hv]
      rw [ih (fun w hw => h w (List.mem_cons_of_mem v hw))]

/-- A concrete consistent client-side vacation used as the rollback witness. -/
def vacationLikedTwo : VacationModel :=
  { _id := "a", destination := "Paris", likedByMe := some true, likesCount := some 2 }

/-- C1 (witness): a concrete consistent list on which the amended rollback
law evaluates as stated. -/
theorem toggle_twice_rollback_witness :
    (∀ v ∈ [vacationLikedTwo], v._id = "a" → likeConsistent v) ∧
    toggleLikeOptimistic (toggleLikeOptimistic [vacationLikedTwo] "a") "a" =
      [vacationLikedTwo] := by
  refine ⟨?_, toggle_twice_rollback _ _ ?_⟩ <;>
  · intro v hv _
    simp only [List.mem_singleton] at hv
    subst hv
    exact ⟨true, 2, rfl, rfl, by decide, fun _ => by decide⟩

end Frontend

/-! ## Backend: shared data model and error taxonomy

The repository contains two copies of the backend service layer — the live
Cloudinary-based one (`backend/src`) and a fileSaver-based one
(`Backend/src`).  Outside of image handling and the order of effects in
`deleteVacation` the two are verbatim identical, so a single vacation
document type carrying both image representations (`imageName` for the
fileSaver variant; `imageUrl`/`imagePublicId` for the Cloudinary variant)
is used for both embeddings.
-/

namespace Backend

/-- `Role` enum (`models/role.ts`): `Admin = 1`. -/
def RoleAdmin : Nat := 1

/-- `Role` enum (`models/role.ts`): `User = 2`. -/
def RoleUser : Nat := 2

/-- Error taxonomy of `models/client-errors.ts`. -/
inductive ClientError
  | routeNotFound (route : String)
  | resourceNotFound (id : String)
  | validationError (message : String)
  | authorizationError (message : String)
  | forbiddenError (message : String)
  deriving DecidableEq, Repr

/-- HTTP status carried by each error class (`models/status-code.ts`). -/
def ClientError.status : ClientError → Nat
  | .routeNotFound _ => 404
  | .resourceNotFound _ => 404
  | .validationError _ => 400
  | .authorizationError _ => 401
  | .forbiddenError _ => 403

/-- Observable side effects of the service layer, in execution order:
database reads that matter for sequencing, database writes, local
file-store operations (`uploaded-file-saver`) and Cloudinary asset
operations. -/
inductive Effect
  | dbFindById (id : String)
  | dbSave (id : String)
  | dbUpdate (id : String)
  | dbDelete (id : String)
  | fileAdd (imageName : String)
  | fileUpdate (oldName : String) (newName : String)
  | fileDelete (imageName : String)
  | cloudUpload (publicId : String)
  | cloudDestroy (publicId : String)
  deriving DecidableEq, Repr

/-- Effects that write state (database documents, stored files or cloud
assets); `dbFindById` is the only read-only effect. -/
def Effect.isWrite : Effect → Bool
  | .dbFindById _ => false
  | _ => true

/-- A stored vacation document (`models/vacation-model.ts`).  Carries the
image fields of both backend variants; see the section comment. -/
structure IVacationModel where
  _id : String
  destination : String
  description : String
  startDate : Int
  endDate : Int
  price : Int
  imageName : String
  imageUrl : String
  imagePublicId : String
  likedUserIds : List String
  deriving DecidableEq, Repr

/-- Milliseconds per calendar day. -/
def msPerDay : Int := 86400000

/-- Effect of JS `date.setHours(0, 0, 0, 0)` on an epoch-millisecond
timestamp: zero the time-of-day component, keeping the calendar day. -/
def setHoursZero (t : Int) : Int := t - t.emod msPerDay

/-- Service results: the value (new database state) or a thrown
`ClientError`, paired with the trace of effects that were performed. -/
def SvcResult (α : Type) := Except ClientError α × List Effect

/-- Whether a service result is a thrown `ValidationError`. -/
def isValidationResult {α : Type} : Except ClientError α → Bool
  | .error (.validationError _) => true
  | _ => false

/-- Whether any state was written (persisted) in an effect trace. -/
def persisted (trace : List Effect) : Bool := trace.any Effect.isWrite

end Backend

/-! ## Backend (`Backend/src/4-services/vacation-service.ts`, fileSaver variant) -/

namespace BackendFS

open Backend

/-- `addVacation`: Mongoose schema validation, then the two custom date
checks (`start < today` date-only, `endDate < startDate` raw), then the
optional `fileSaver.add` and `vacation.save()`.  `image` is the uploaded
file, modelled by the name `fileSaver.add` stores it under. -/
def addVacation (schemaOk : Bool) (now : Int) (db : List IVacationModel)
    (vacation : IVacationModel) (image : Option String) :
    SvcResult (List IVacationModel) :=
  if schemaOk = false then (.error (.validationError "schema validation failed"), [])
  else
    let today := setHoursZero now
    let start := setHoursZero vacation.startDate
    if start < today then
      (.error (.validationError "Start date cannot be in the past."), [])
    else if vacation.endDate < vacation.startDate then
      (.error (.validationError "End date must be after start date."), [])
    else
      match image with
      | some savedName =>
          let vac := { vacation with imageName := savedName }
          (.ok (db ++ [vac]), [.fileAdd savedName, .dbSave vac._id])
      | none => (.ok (db ++ [vacation]), [.dbSave vacation._id])

/-- `findByIdAndUpdate` with `$set` of the document minus `likedUserIds`:
all scalar fields are overwritten, the liking set of the stored record is
kept. -/
def applyUpdate (old updated : IVacationModel) : IVacationModel :=
  { updated with likedUserIds := old.likedUserIds }

/-- `updateVacation`: schema validation, the `endDate < startDate` check
(no past-start-date check on update), then — only when a new image is
supplied — `getImageName` (a `findById` that throws `ResourceNotFound`)
and `fileSaver.update`, and finally `findByIdAndUpdate` excluding
`likedUserIds`. -/
def updateVacation (schemaOk : Bool) (db : List IVacationModel)
    (vacation : IVacationModel) (image : Option String) :
    SvcResult (List IVacationModel) :=
  if schemaOk = false then (.error (.validationError "schema validation failed"), [])
  else if vacation.endDate < vacation.startDate then
    (.error (.validationError "End date must be after start date."), [])
  else
    match image with
    | some newName =>
        match db.find? (fun v => v._id == vacation._id) with
        | none => (.error (.resourceNotFound vacation._id), [.dbFindById vacation._id])
        | some old =>
            let vac := { vacation with imageName := newName }
            (.ok (db.map fun v => if v._id == vacation._id then applyUpdate v vac else v),
             [.dbFindById vacation._id, .fileUpdate old.imageName newName,
              .dbUpdate vacation._id])
    | none =>
        match db.find? (fun v => v._id == vacation._id) with
        | none => (.error (.resourceNotFound vacation._id), [])
        | some _ =>
            (.ok (db.map fun v => if v._id == vacation._id then applyUpdate v vacation else v),
             [.dbUpdate vacation._id])

end BackendFS

namespace Backend

/-- Whether a service call succeeded. -/
def isOkResult {α : Type} : Except ClientError α → Bool
  | .ok _ => true
  | .error _ => false

end Backend

namespace BackendFS

open Backend

/-- C2: with a schema-valid document, `addVacation` throws a
`ValidationError` exactly when the vacation's start date is strictly
before the current calendar day (date-only comparison) or its end date is
strictly before its start date, while `updateVacation` throws a
`ValidationError` exactly when the end date is strictly before the start
date — a past start date is accepted on update; and for both operations
state is written (persisted) exactly on success, so nothing is persisted
in any rejection case. -/
theorem dateValidation_exact (now : Int) (db : List IVacationModel)
    (vacation : IVacationModel) (image : Option String) :
    (isValidationResult (addVacation true now db vacation image).1 = true ↔
      (setHoursZero vacation.startDate < setHoursZero now ∨
        vacation.endDate < vacation.startDate)) ∧
    (persisted (addVacation true now db vacation image).2 = true ↔
      isOkResult (addVacation true now db vacation image).1 = true) ∧
    (isValidationResult (updateVacation true db vacation image).1 = true ↔
      vacation.endDate < vacation.startDate) ∧
    (persisted (updateVacation true db vacation image).2 = true ↔
      isOkResult (updateVacation true db vacation image).1 = true) := by
  refine ⟨?_, ?_, ?_, ?_⟩
  · by_cases h1 : setHoursZero vacation.startDate < setHoursZero now
    · simp [addVacation, h1, isValidationResult]
    · by_cases h2 : vacation.endDate < vacation.startDate
      · simp [addVacation, h1, h2, isValidationResult]
      · cases image <;> simp [addVacation, h1, h2, isValidationResult]
  · by_cases h1 : setHoursZero vacation.startDate < setHoursZero now
    · simp [addVacation, h1, persisted, isOkResult]
    · by_cases h2 : vacation.endDate < vacation.startDate
      · simp [addVacation, h1, h2, persisted, isOkResult]
      · cases image <;>
          simp [addVacation, h1, h2, persisted, isOkResult, Effect.isWrite]
  · by_cases h2 : vacation.endDate < vacation.startDate
    · simp [updateVacation, h2, isValidationResult]
    · cases image with
      | none =>
          cases hf : db.find? (fun v => v._id == vacation._id) <;>
            simp [updateVacation, h2, hf, isValidationResult]
      | some newName =>
          cases hf : db.find? (fun v => v._id == vacation._id) <;>
            simp [updateVacation, h2, hf, isValidationResult]
  · by_cases h2 : vacation.endDate < vacation.startDate
    · simp [updateVacation, h2, persisted, isOkResult]
    · cases image with
      | none =>
          cases hf : db.find? (fun v => v._id == vacation._id) <;>
            simp [updateVacation, h2, hf, persisted, isOkResult, Effect.isWrite]
      | some newName =>
          cases hf : db.find? (fun v => v._id == vacation._id) <;>
            simp [updateVacation, h2, hf, persisted, isOkResult, Effect.isWrite]

/-- `deleteVacation` of the fileSaver variant
(`Backend/src/4-services/vacation-service.ts`): `getImageName` (a
`findById`, throwing `ResourceNotFound` for a missing id), then
`findByIdAndDelete` of the record, then — if an image name is stored —
`fileSaver.delete` of the image file. -/
def deleteVacation (db : List IVacationModel) (_id : String) :
    SvcResult (List IVacationModel) :=
  match db.find? (fun v => v._id == _id) with
  | none => (.error (.resourceNotFound _id), [.dbFindById _id])
  | some v =>
      (.ok (db.filter fun w => w._id != _id),
       [.dbFindById _id, .dbDelete _id] ++
         (if v.imageName ≠ "" then [.fileDelete v.imageName] else []))

end BackendFS

/-! ## Backend (`backend/src/services/vacation-service.ts`, Cloudinary variant) -/

namespace BackendCloud

open Backend

/-- `deleteVacation` of the Cloudinary variant
(`backend/src/services/vacation-service.ts`): `findById` (throwing
`ResourceNotFound` for a missing id), then `cloudinary.uploader.destroy`
of the stored asset, then `findByIdAndDelete` of the record. -/
def deleteVacation (db : List IVacationModel) (_id : String) :
    SvcResult (List IVacationModel) :=
  match db.find? (fun v => v._id == _id) with
  | none => (.error (.resourceNotFound _id), [.dbFindById _id])
  | some existingVacation =>
      (.ok (db.filter fun w => w._id != _id),
       [.dbFindById _id, .cloudDestroy existingVacation.imagePublicId, .dbDelete _id])

end BackendCloud

namespace Backend

/-- External image asset deletions (Cloudinary destroy or file-store delete). -/
def Effect.isAssetDeletion : Effect → Bool
  | .cloudDestroy _ => true
  | .fileDelete _ => true
  | _ => false

/-- Database record deletions. -/
def Effect.isRecordDeletion : Effect → Bool
  | .dbDelete _ => true
  | _ => false

/-- Scans a trace in execution order, tracking whether an external asset
deletion has been seen; fails exactly when some record deletion occurs
with no asset deletion strictly before it. -/
def assetBeforeRecordAux (seenAsset : Bool) : List Effect → Bool
  | [] => true
  | e :: rest =>
      if e.isRecordDeletion && !seenAsset then false
      else assetBeforeRecordAux (seenAsset || e.isAssetDeletion) rest

/-- Every record deletion in the trace is preceded by an external asset
deletion. -/
def assetBeforeRecord (trace : List Effect) : Bool :=
  assetBeforeRecordAux false trace

/-- A concrete stored vacation used at the concrete evaluation points. -/
def parisStored : IVacationModel :=
  { _id := "v1", destination := "Paris", description := "five nights in Paris",
    startDate := 100, endDate := 200, price := 500, imageName := "paris.jpg",
    imageUrl := "https://res.cloudinary.com/demo/paris.jpg",
    imagePublicId := "skyline-trips/vacations/paris",
    likedUserIds := ["u1", "u2", "u3"] }

/-- C3 (counterexample): in the fileSaver variant
(`Backend/src/4-services/vacation-service.ts`) the execution reaching
record deletion has not performed the asset deletion: the record is
deleted first and the image file only afterwards, refuting the claimed
order for that `deleteVacation`. -/
theorem deleteVacationFS_record_before_asset :
    assetBeforeRecord (BackendFS.deleteVacation [parisStored] "v1").2 = false := by
  decide

/-- C3 (amended): the Cloudinary variant
(`backend/src/services/vacation-service.ts`) performs exactly the claimed
order — look up the record, destroy the external asset, delete the
database record — so every execution that reaches record deletion has
already deleted the asset; the fileSaver variant
(`Backend/src/4-services/vacation-service.ts`) instead deletes the record
first and removes the image file afterwards. -/
theorem deleteVacationCloud_asset_before_record (db : List IVacationModel)
    (_id : String) :
    (BackendCloud.deleteVacation db _id).2 =
      (match db.find? (fun v => v._id == _id) with
       | none => [Effect.dbFindById _id]
       | some v => [Effect.dbFindById _id, Effect.cloudDestroy v.imagePublicId,
                    Effect.dbDelete _id]) ∧
    assetBeforeRecord (BackendCloud.deleteVacation db _id).2 = true := by
  cases hf : db.find? (fun v => v._id == _id) <;>
    simp [BackendCloud.deleteVacation, hf, assetBeforeRecord, assetBeforeRecordAux,
      Effect.isRecordDeletion, Effect.isAssetDeletion]

end Backend

/-! ## Backend: like routes and the admin-liking invariant

Route wiring from `5-controllers/vacation-controller.ts` (identical in both
backend variants): `POST /api/vacations/:_id/like` and
`DELETE /api/vacations/:_id/like` run `verifyToken`, then
`preventAdminLike` (`role-middleware.ts`), then the service handler.
-/

namespace Backend

/-- The authenticated caller attached to `response.locals.user` by
`verifyToken`: identifier and role claim from the JWT. -/
structure UserCtx where
  _id : String
  roleId : Nat
  deriving DecidableEq, Repr

/-- `preventAdminLike` middleware: passes an admin-role caller to the
error pipeline with a `ForbiddenError`, otherwise continues. -/
def preventAdminLike (user : UserCtx) : Option ClientError :=
  if user.roleId = RoleAdmin then some (.forbiddenError "Admin cannot like vacations.")
  else none

/-- MongoDB `$addToSet`: append the value unless already present. -/
def addToSet (ids : List String) (userId : String) : List String :=
  if ids.contains userId then ids else ids ++ [userId]

/-- MongoDB `$pull`: remove every occurrence of the value. -/
def pull (ids : List String) (userId : String) : List String :=
  ids.filter (fun id => id != userId)

/-- `likeVacation` service: `findByIdAndUpdate` with
`$addToSet likedUserIds userId`, `ResourceNotFound` when the id is absent. -/
def likeVacation (db : List IVacationModel) (vacationId userId : String) :
    SvcResult (List IVacationModel) :=
  match db.find? (fun v => v._id == vacationId) with
  | none => (.error (.resourceNotFound vacationId), [])
  | some _ =>
      (.ok (db.map fun v => if v._id == vacationId
              then { v with likedUserIds := addToSet v.likedUserIds userId } else v),
       [.dbUpdate vacationId])

/-- `unlikeVacation` service: `findByIdAndUpdate` with
`$pull likedUserIds userId`. -/
def unlikeVacation (db : List IVacationModel) (vacationId userId : String) :
    SvcResult (List IVacationModel) :=
  match db.find? (fun v => v._id == vacationId) with
  | none => (.error (.resourceNotFound vacationId), [])
  | some _ =>
      (.ok (db.map fun v => if v._id == vacationId
              then { v with likedUserIds := pull v.likedUserIds userId } else v),
       [.dbUpdate vacationId])

/-- The `POST /api/vacations/:_id/like` pipeline after `verifyToken`:
`preventAdminLike`, then the `likeVacation` handler. -/
def likeRoute (db : List IVacationModel) (user : UserCtx) (vacationId : String) :
    SvcResult (List IVacationModel) :=
  match preventAdminLike user with
  | some err => (.error err, [])
  | none => likeVacation db vacationId user._id

/-- The `DELETE /api/vacations/:_id/like` pipeline after `verifyToken`. -/
def unlikeRoute (db : List IVacationModel) (user : UserCtx) (vacationId : String) :
    SvcResult (List IVacationModel) :=
  match preventAdminLike user with
  | some err => (.error err, [])
  | none => unlikeVacation db vacationId user._id

/-- A like or unlike request by an authenticated user. -/
inductive LikeRequest
  | like (userId vacationId : String)
  | unlike (userId vacationId : String)
  deriving DecidableEq, Repr

/-- Processes one request against the store, with the caller's role claim
drawn from the role assignment `roles`; a rejected request leaves the
store unchanged. -/
def stepRequest (roles : String → Nat) (db : List IVacationModel) :
    LikeRequest → List IVacationModel
  | .like u vid =>
      match likeRoute db ⟨u, roles u⟩ vid with
      | (.ok db2, _) => db2
      | (.error _, _) => db
  | .unlike u vid =>
      match unlikeRoute db ⟨u, roles u⟩ vid with
      | (.ok db2, _) => db2
      | (.error _, _) => db

/-- Processes a sequence of like/unlike requests. -/
def runRequests (roles : String → Nat) (db : List IVacationModel)
    (reqs : List LikeRequest) : List IVacationModel :=
  reqs.foldl (stepRequest roles) db

/-- No vacation's liking set contains an identifier whose role is Admin. -/
def noAdminLikes (roles : String → Nat) (db : List IVacationModel) : Bool :=
  db.all fun v => v.likedUserIds.all fun uid => roles uid != RoleAdmin

theorem mem_addToSet {ids : List String} {userId x : String}
    (h : x ∈ addToSet ids userId) : x ∈ ids ∨ x = userId := by
  unfold addToSet at h
  by_cases hc : ids.contains userId
  · rw [if_pos hc] at h
    exact Or.inl h
  · rw [if_neg hc] at h
    rcases List.mem_append.1 h with h1 | h1
    · exact Or.inl h1
    · exact Or.inr (List.mem_singleton.1 h1)

theorem mem_pull {ids : List String} {userId x : String}
    (h : x ∈ pull ids userId) : x ∈ ids :=
  List.mem_of_mem_filter h

theorem noAdminLikes_step (roles : String → Nat) (db : List IVacationModel)
    (req : LikeRequest) (hInv : noAdminLikes roles db = true) :
    noAdminLikes roles (stepRequest roles db req) = true := by
  rw [noAdminLikes, List.all_eq_true] at hInv ⊢
  intro v hv
  rw [List.all_eq_true]
  intro uid huid
  cases req with
  | like u vid =>
      simp only [stepRequest, likeRoute] at hv
      by_cases hadm : (⟨u, roles u⟩ : UserCtx).roleId = RoleAdmin
      · rw [preventAdminLike, if_pos hadm] at hv
        exact List.all_eq_true.1 (hInv v hv) uid huid
      · rw [preventAdminLike, if_neg hadm] at hv
        rw [likeVacation] at hv
        cases hf : db.find? (fun v => v._id == vid) with
        | none => rw [hf] at hv; exact List.all_eq_true.1 (hInv v hv) uid huid
        | some w =>
            rw [hf] at hv
            simp only at hv
            obtain ⟨w2, hw2, hv2⟩ := List.mem_map.1 hv
            by_cases hid : w2._id == vid
            · rw [if_pos hid] at hv2
              subst hv2
              simp only at huid
              rcases mem_addToSet huid with hmem | hequ
              · exact List.all_eq_true.1 (hInv w2 hw2) uid hmem
              · subst hequ
                simp only [UserCtx.roleId] at hadm
                simp [hadm, RoleAdmin]
                intro hcontra
                exact hadm (by simpa [RoleAdmin] using hcontra)
            · rw [if_neg hid] at hv2
              subst hv2
              exact List.all_eq_true.1 (hInv w2 hw2) uid huid
  | unlike u vid =>
      simp only [stepRequest, unlikeRoute] at hv
      by_cases hadm : (⟨u, roles u⟩ : UserCtx).roleId = RoleAdmin
      · rw [preventAdminLike, if_pos hadm] at hv
        exact List.all_eq_true.1 (hInv v hv) uid huid
      · rw [preventAdminLike, if_neg hadm] at hv
        rw [unlikeVacation] at hv
        cases hf : db.find? (fun v => v._id == vid) with
        | none => rw [hf] at hv; exact List.all_eq_true.1 (hInv v hv) uid huid
        | some w =>
            rw [hf] at hv
            simp only at hv
            obtain ⟨w2, hw2, hv2⟩ := List.mem_map.1 hv
            by_cases hid : w2._id == vid
            · rw [if_pos hid] at hv2
              subst hv2
              simp only at huid
              exact List.all_eq_true.1 (hInv w2 hw2) uid (mem_pull huid)
            · rw [if_neg hid] at hv2
              subst hv2
              exact List.all_eq_true.1 (hInv w2 hw2) uid huid

/-- C4: an admin-role caller's like and unlike requests both fail with the
`ForbiddenError` (HTTP 403) from `preventAdminLike`, with an empty effect
trace — the service mutation never runs — and the store is unchanged;
consequently, over any sequence of like/unlike requests, no vacation's
liking set ever contains an administrator's identifier. -/
theorem adminLike_forbidden (roles : String → Nat) (db : List IVacationModel)
    (u vid : String) (reqs : List LikeRequest)
    (hAdmin : roles u = RoleAdmin)
    (hInv : noAdminLikes roles db = true) :
    likeRoute db ⟨u, roles u⟩ vid =
      (.error (.forbiddenError "Admin cannot like vacations."), []) ∧
    unlikeRoute db ⟨u, roles u⟩ vid =
      (.error (.forbiddenError "Admin cannot like vacations."), []) ∧
    (ClientError.forbiddenError "Admin cannot like vacations.").status = 403 ∧
    stepRequest roles db (.like u vid) = db ∧
    stepRequest roles db (.unlike u vid) = db ∧
    noAdminLikes roles (runRequests roles db reqs) = true := by
  refine ⟨?_, ?_, rfl, ?_, ?_, ?_⟩
  · simp [likeRoute, preventAdminLike, hAdmin]
  · simp [unlikeRoute, preventAdminLike, hAdmin]
  · simp [stepRequest, likeRoute, preventAdminLike, hAdmin]
  · simp [stepRequest, unlikeRoute, preventAdminLike, hAdmin]
  · rw [runRequests]
    induction reqs generalizing db with
    | nil => exact hInv
    | cons r rest ih =>
        rw [List.foldl_cons]
        exact ih (stepRequest roles db r) (noAdminLikes_step roles db r hInv)

/-- A concrete role assignment: `"admin"` is the administrator, everyone
else a regular user. -/
def demoRoles : String → Nat := fun s => if s = "admin" then RoleAdmin else RoleUser

/-- C4 (witness): the theorem evaluated at a concrete store, admin caller
and request sequence. -/
theorem adminLike_forbidden_witness :
    demoRoles "admin" = RoleAdmin ∧
    noAdminLikes demoRoles [parisStored] = true ∧
    noAdminLikes demoRoles
      (runRequests demoRoles [parisStored]
        [.like "u9" "v1", .unlike "u2" "v1", .like "admin" "v1"]) = true := by
  refine ⟨rfl, by decide, ?_⟩
  exact (adminLike_forbidden demoRoles [parisStored] "admin" "v1"
    [.like "u9" "v1", .unlike "u2" "v1", .like "admin" "v1"] rfl (by decide)).2.2.2.2.2

end Backend

/-! ## Backend: filter parsing and query building (`utils/filter.ts`,
`utils/filter-query.ts`; identical in both backend variants) -/

namespace Backend

/-- `FilterType`: the four filter tags. -/
inductive FilterType
  | all
  | liked
  | active
  | upcoming
  deriving DecidableEq, Repr

/-- The MongoDB query object produced by `buildVacationQuery`. -/
inductive VacationQuery
  | empty
  | likedContains (userId : String)
  | activeBetween (now : Int)
  | startAfter (now : Int)
  deriving DecidableEq, Repr

/-- `buildVacationQuery`: `"liked"` yields the membership query for a
present user id and `{}` for a null one; `"active"` compares both date
bounds against `new Date()`; `"upcoming"` compares the start date against
`new Date()`; `"all"` (and the switch default) yields `{}`.  `now` is the
request time. -/
def buildVacationQuery (filter : FilterType) (userId : Option String) (now : Int) :
    VacationQuery :=
  match filter with
  | .liked =>
      match userId with
      | some u => .likedContains u
      | none => .empty
  | .active => .activeBetween now
  | .upcoming => .startAfter now
  | .all => .empty

/-- MongoDB evaluation of the query object against a document:
`{likedUserIds: userId}` matches documents whose array field contains the
value; the date queries compare the stored dates with the captured `now`. -/
def matchesQuery (q : VacationQuery) (v : IVacationModel) : Bool :=
  match q with
  | .empty => true
  | .likedContains u => v.likedUserIds.contains u
  | .activeBetween now => decide (v.startDate ≤ now) && decide (now ≤ v.endDate)
  | .startAfter now => decide (now < v.startDate)

/-- The predicate each filter tag is specified to denote: unrestricted for
"all"; membership of the requesting user in the liking set for "liked",
unrestricted when no user id is supplied; `startDate <= now <= endDate`
for "active"; `startDate > now` for "upcoming". -/
def filterSpecPredicate (filter : FilterType) (userId : Option String) (now : Int)
    (v : IVacationModel) : Bool :=
  match filter, userId with
  | .all, _ => true
  | .liked, some u => decide (u ∈ v.likedUserIds)
  | .liked, none => true
  | .active, _ => decide (v.startDate ≤ now ∧ now ≤ v.endDate)
  | .upcoming, _ => decide (v.startDate > now)

/-- C5: for every filter tag, optional user id, request time and document,
the query built by `buildVacationQuery` matches the document exactly when
the specified predicate holds. -/
theorem buildVacationQuery_correct (filter : FilterType) (userId : Option String)
    (now : Int) (v : IVacationModel) :
    matchesQuery (buildVacationQuery filter userId now) v =
      filterSpecPredicate filter userId now v := by
  cases filter <;> cases userId <;>
    simp [buildVacationQuery, matchesQuery, filterSpecPredicate,
      List.contains, List.elem_eq_mem, Bool.decide_and, gt_iff_lt]

end Backend

/-! ## Backend: paginated retrieval (`getVacations` in
`4-services/vacation-service.ts` and the `getVacations` controller) -/

namespace Backend

/-- The `.sort({ startDate: 1 })` comparison: ascending start date. -/
def startDateLe (a b : IVacationModel) : Bool := decide (a.startDate ≤ b.startDate)

/-- `getVacations`: `countDocuments(query)` for the total, then
`find(query).sort({ startDate: 1 }).skip((page - 1) * pageSize).limit(pageSize)`
for the page window. -/
def getVacations (db : List IVacationModel) (query : VacationQuery)
    (page pageSize : Nat) : List IVacationModel × Nat :=
  let totalCount := (db.filter (matchesQuery query)).length
  let vacations :=
    (((db.filter (matchesQuery query)).mergeSort startDateLe).drop
      ((page - 1) * pageSize)).take pageSize
  (vacations, totalCount)

/-- The controller's `Math.ceil(totalCount / pageSize)`: real division of
the two counts, rounded up. -/
def totalPagesOf (totalCount pageSize : Nat) : Int :=
  Int.ceil ((totalCount : ℚ) / (pageSize : ℚ))

theorem totalPagesOf_eq_ceilDiv (a s : Nat) :
    totalPagesOf a (s + 1) = ((a + (s + 1) - 1) / (s + 1) : Nat) := by
  have he : a + (s + 1) - 1 = a + s := by omega
  rw [totalPagesOf, he]
  set N := (a + s) / (s + 1) with hN
  have hb : (0 : ℚ) < ((s + 1 : ℕ) : ℚ) := by exact_mod_cast Nat.succ_pos s
  have h1 : N * (s + 1) ≤ a + s := Nat.div_mul_le_self _ _
  have h2 : a ≤ N * (s + 1) := by
    have hdm : (s + 1) * N + (a + s) % (s + 1) = a + s := Nat.div_add_mod (a + s) (s + 1)
    have hml : (a + s) % (s + 1) < s + 1 := Nat.mod_lt (a + s) (by omega)
    nlinarith [hdm, hml]
  have hc1 : ((N * (s + 1) : ℕ) : ℚ) ≤ ((a + s : ℕ) : ℚ) := Nat.cast_le.2 h1
  have hc2 : ((a : ℕ) : ℚ) ≤ ((N * (s + 1) : ℕ) : ℚ) := Nat.cast_le.2 h2
  rw [Int.ceil_eq_iff]
  simp only [Int.cast_natCast]
  constructor
  · rw [lt_div_iff hb]
    push_cast at hc1 ⊢
    nlinarith [hc1]
  · rw [div_le_iff hb]
    push_cast at hc2 ⊢
    nlinarith [hc2]

theorem sum_min_windows (s : Nat) (len : Nat) :
    (((List.range ((len + s) / (s + 1))).map
        (fun i => min (s + 1) (len - i * (s + 1)))).sum) = len := by
  induction len using Nat.strong_induction_on with
  | _ len ih =>
    by_cases h0 : len = 0
    · subst h0
      have hz : (0 + s) / (s + 1) = 0 := Nat.div_eq_of_lt (by omega)
      simp [hz]
    · have hdiv : (len + s) / (s + 1) = (len - (s + 1) + s) / (s + 1) + 1 := by
        rcases Nat.le_total len (s + 1) with hle | hge
        · have e1 : len + s = (len - 1) + (s + 1) := by omega
          have e2 : len - (s + 1) + s = s := by omega
          rw [e1, Nat.add_div_right _ (by omega : 0 < s + 1), e2]
          have e3 : (len - 1) / (s + 1) = 0 := Nat.div_eq_of_lt (by omega)
          have e4 : s / (s + 1) = 0 := Nat.div_eq_of_lt (by omega)
          rw [e3, e4]
        · have e1 : len + s = (len - (s + 1) + s) + (s + 1) := by omega
          rw [e1, Nat.add_div_right _ (by omega : 0 < s + 1)]
      rw [hdiv, List.range_succ_eq_map, List.map_cons, List.map_map, List.sum_cons]
      have htail : (List.range ((len - (s + 1) + s) / (s + 1))).map
            ((fun i => min (s + 1) (len - i * (s + 1))) ∘ Nat.succ) =
          (List.range ((len - (s + 1) + s) / (s + 1))).map
            (fun i => min (s + 1) ((len - (s + 1)) - i * (s + 1))) := by
        apply List.map_congr_left
        intro i _
        simp only [Function.comp_apply, Nat.succ_eq_add_one, Nat.succ_mul,
          Nat.sub_sub]
        rw [Nat.add_comm (i * (s + 1)) (s + 1)]
      rw [htail, ih (len - (s + 1)) (by omega)]
      omega

end Backend

namespace Backend

/-- C6: for every database, query, page, and page size `s + 1` (≥ 1): the
controller's `Math.ceil(totalCount / pageSize)` equals
`ceil((totalCount + pageSize - 1) / pageSize)`; the reported total is the
number of matching vacations; the sort is a permutation of the matching
vacations; each page `p` returns the window
`skip((p - 1) * pageSize), limit(pageSize)` of the matching vacations
ordered ascending by `startDate` (the window itself is ascending); and the
window sizes over pages `1..totalPages` sum to exactly `totalCount`. -/
theorem getVacations_pagination (db : List IVacationModel) (q : VacationQuery)
    (page s : Nat) :
    totalPagesOf (getVacations db q page (s + 1)).2 (s + 1) =
      (((getVacations db q page (s + 1)).2 + (s + 1) - 1) / (s + 1) : Nat) ∧
    (getVacations db q page (s + 1)).2 = (db.filter (matchesQuery q)).length ∧
    ((db.filter (matchesQuery q)).mergeSort startDateLe).Perm
      (db.filter (matchesQuery q)) ∧
    (getVacations db q page (s + 1)).1 =
      (((db.filter (matchesQuery q)).mergeSort startDateLe).drop
        ((page - 1) * (s + 1))).take (s + 1) ∧
    List.Pairwise (fun v w => v.startDate ≤ w.startDate)
      (getVacations db q page (s + 1)).1 ∧
    ((List.range (((db.filter (matchesQuery q)).length + (s + 1) - 1) / (s + 1))).map
        (fun p => (getVacations db q (p + 1) (s + 1)).1.length)).sum =
      (db.filter (matchesQuery q)).length := by
  refine ⟨totalPagesOf_eq_ceilDiv _ s, rfl, List.mergeSort_perm _ _, rfl, ?_, ?_⟩
  · have hsorted : ((db.filter (matchesQuery q)).mergeSort startDateLe).Pairwise
        (fun v w => startDateLe v w) := by
      apply List.sorted_mergeSort
      · intro x y z hxy hyz
        simp only [startDateLe, decide_eq_true_eq] at hxy hyz ⊢
        omega
      · intro x y
        simp only [startDateLe]
        rcases Int.le_total x.startDate y.startDate with h | h <;> simp [h]
    have hsorted2 : ((db.filter (matchesQuery q)).mergeSort startDateLe).Pairwise
        (fun v w => v.startDate ≤ w.startDate) :=
      hsorted.imp (fun h => by simpa [startDateLe] using h)
    refine List.Pairwise.sublist ?_ hsorted2
    exact (List.take_sublist _ _).trans (List.drop_sublist _ _)
  · have hw : ∀ p : Nat, (getVacations db q (p + 1) (s + 1)).1.length =
        min (s + 1) ((db.filter (matchesQuery q)).length - p * (s + 1)) := by
      intro p
      simp [getVacations, Nat.add_sub_cancel]
    have he : (db.filter (matchesQuery q)).length + (s + 1) - 1 =
        (db.filter (matchesQuery q)).length + s := by omega
    rw [he]
    calc ((List.range (((db.filter (matchesQuery q)).length + s) / (s + 1))).map
            (fun p => (getVacations db q (p + 1) (s + 1)).1.length)).sum
        = ((List.range (((db.filter (matchesQuery q)).length + s) / (s + 1))).map
            (fun p => min (s + 1)
              ((db.filter (matchesQuery q)).length - p * (s + 1)))).sum :=
          congrArg List.sum (List.map_congr_left (fun p _ => hw p))
      _ = (db.filter (matchesQuery q)).length := sum_min_windows s _

end Backend

/-! ## Backend: CSV report (`generateVacationsReportCSV`, identical in both
backend variants) -/

namespace Backend

/-- JS `String(destination).replace(/"/g, '""')`: every double-quote
character is replaced by two. -/
def jsDoubleQuotes (s : String) : String :=
  String.mk (s.data.flatMap fun c => if c = '"' then ['"', '"'] else [c])

/-- `generateVacationsReportCSV`: the header line `destination,likes`;
one row per vacation in storage order — the destination wrapped in double
quotes with internal quotes doubled, a comma, and the length of
`likedUserIds`; lines joined by `"\n"`; the whole prefixed with the
byte-order mark `"\uFEFF"`. -/
def generateVacationsReportCSV (vacations : List IVacationModel) : String :=
  let header := "destination,likes"
  let rows := vacations.map fun v =>
    let destination := "\"" ++ jsDoubleQuotes v.destination ++ "\""
    let likes := v.likedUserIds.length
    destination ++ "," ++ toString likes
  "\uFEFF" ++ String.intercalate "\n" (header :: rows)

/-- The row the specification describes, built independently of the
implementation: a character-by-character fold wrapping the destination in
double quotes and doubling each internal double quote, then a comma and
the cardinality of the liking set. -/
def csvRowSpec (v : IVacationModel) : String :=
  "\"" ++
    v.destination.foldl
      (fun acc c => acc ++ (if c = '"' then "\"\"" else String.singleton c)) "" ++
    "\"" ++ "," ++ toString v.likedUserIds.length

theorem foldl_quote_append (l : List Char) (acc : String) :
    l.foldl (fun a c => a ++ (if c = '"' then "\"\"" else String.singleton c)) acc =
      acc ++ String.mk (l.flatMap fun c => if c = '"' then ['"', '"'] else [c]) := by
  induction l generalizing acc with
  | nil =>
      apply String.ext
      simp
  | cons c cs ih =>
      rw [List.foldl_cons, ih]
      apply String.ext
      by_cases hc : c = '"' <;> simp [hc]

/-- A second concrete vacation for the CSV scenario: destination with an
internal quoted part and an empty liking set. -/
def saoStored : IVacationModel :=
  { _id := "v2", destination := "São \"Tropez\"", description := "a quiet beach week",
    startDate := 300, endDate := 400, price := 900, imageName := "sao.jpg",
    imageUrl := "https://res.cloudinary.com/demo/sao.jpg",
    imagePublicId := "skyline-trips/vacations/sao",
    likedUserIds := [] }

/-- C7: the CSV report is the byte-order mark followed by the header
`destination,likes` and one specified row per vacation in storage order,
joined by single newlines; in particular for the two vacations with
destinations `Paris` (3 likes) and `São "Tropez"` (0 likes) the body after
the BOM is exactly the quoted/escaped two-row document. -/
theorem generateVacationsReportCSV_spec (vacations : List IVacationModel) :
    generateVacationsReportCSV vacations =
      "\uFEFF" ++ String.intercalate "\n" ("destination,likes" ::
        vacations.map csvRowSpec) ∧
    generateVacationsReportCSV [parisStored, saoStored] =
      "\uFEFF" ++ "destination,likes\n\"Paris\",3\n\"São \"\"Tropez\"\"\",0" := by
  constructor
  · have hmap : (vacations.map fun v =>
        ("\"" ++ jsDoubleQuotes v.destination ++ "\"") ++ "," ++
          toString v.likedUserIds.length) = vacations.map csvRowSpec := by
      apply List.map_congr_left
      intro v _
      unfold csvRowSpec
      rw [String.foldl_eq, foldl_quote_append]
      apply String.ext
      simp [jsDoubleQuotes]
    show "\uFEFF" ++ String.intercalate "\n" ("destination,likes" ::
        vacations.map fun v =>
          ("\"" ++ jsDoubleQuotes v.destination ++ "\"") ++ "," ++
            toString v.likedUserIds.length) = _
    rw [hmap]
  · decide

end Backend

/-! ## Backend: response serialization (`serializeVacation` in
`Backend/src/2-utils/vacation-serializer.ts`; the Cloudinary variant's
`utils/vacation-serializer.ts` differs only in which image fields the
document carries) -/

namespace Backend

/-- A JSON field value in a serialized response object. -/
inductive JsValue
  | str (s : String)
  | num (n : Int)
  | bool (b : Bool)
  | strArr (a : List String)
  deriving DecidableEq, Repr

/-- The base URL prepended by the `imageUrl` virtual of the fileSaver
schema (`appConfig.baseImageUrl`). -/
def baseImageUrl : String := "http://localhost:4001/api/vacations/images/"

/-- `vacation.toObject({ virtuals: true })`: the document's schema fields
plus the computed `imageUrl` virtual, as a field-name/value map. -/
def toObject (v : IVacationModel) : List (String × JsValue) :=
  [("_id", .str v._id),
   ("destination", .str v.destination),
   ("description", .str v.description),
   ("startDate", .num v.startDate),
   ("endDate", .num v.endDate),
   ("price", .num v.price),
   ("imageName", .str v.imageName),
   ("likedUserIds", .strArr v.likedUserIds),
   ("imageUrl", .str (baseImageUrl ++ v.imageName))]

/-- JS `delete obj.key`: drop the field from the object. -/
def deleteKey (obj : List (String × JsValue)) (key : String) :
    List (String × JsValue) :=
  obj.filter (fun p => p.1 ≠ key)

/-- Setting a field in a JS object (later spread entries win): any earlier
binding of the key is replaced. -/
def objSet (obj : List (String × JsValue)) (key : String) (val : JsValue) :
    List (String × JsValue) :=
  deleteKey obj key ++ [(key, val)]

/-- `serializeVacation`: `toObject` with virtuals, `likedByMe` from a
`some`-membership test of the caller's id in `likedUserIds`, `likesCount`
from the array length, `_id` normalized to a string, `likedUserIds`
deleted, and the computed fields spread over the object. -/
def serializeVacation (v : IVacationModel) (userId : String) :
    List (String × JsValue) :=
  let vacationObj := toObject v
  let likedByMe := v.likedUserIds.any (fun id => id == userId)
  let likesCount := v.likedUserIds.length
  let obj := deleteKey vacationObj "likedUserIds"
  objSet (objSet (objSet obj "_id" (.str v._id)) "likedByMe" (.bool likedByMe))
    "likesCount" (.num likesCount)

/-- C8: for every vacation document and requesting user id, the serialized
object reports `likesCount` equal to the cardinality of `likedUserIds` and
`likedByMe` exactly when the requesting user's id is a member of
`likedUserIds`, and carries no `likedUserIds` field at all. -/
theorem serializeVacation_spec (v : IVacationModel) (userId : String) :
    (serializeVacation v userId).lookup "likesCount" =
      some (.num v.likedUserIds.length) ∧
    ((serializeVacation v userId).lookup "likedByMe" = some (.bool true) ↔
      userId ∈ v.likedUserIds) ∧
    (serializeVacation v userId).lookup "likedUserIds" = none := by
  refine ⟨?_, ?_, ?_⟩
  · rfl
  · show (some (JsValue.bool (v.likedUserIds.any (fun id => id == userId))) =
        some (JsValue.bool true)) ↔ userId ∈ v.likedUserIds
    simp only [Option.some.injEq, JsValue.bool.injEq]
    rw [List.any_eq_true]
    constructor
    · rintro ⟨x, hx, hbeq⟩
      rw [beq_iff_eq] at hbeq
      exact hbeq ▸ hx
    · intro hmem
      exact ⟨userId, hmem, beq_self_eq_true userId⟩
  · rfl

end Backend

/-! ## Backend: pagination query parsing (`2-utils/pagination.ts`) -/

namespace Backend

/-- JS whitespace stripped by `Number()` before parsing. -/
def isJsWhitespace (c : Char) : Bool := c = ' ' || c = '\t' || c = '\n' || c = '\r'

/-- Strip whitespace from both ends of a character list. -/
def jsTrim (cs : List Char) : List Char :=
  ((cs.dropWhile isJsWhitespace).reverse.dropWhile isJsWhitespace).reverse

/-- Decimal digit accumulator. -/
def digitsVal (ds : List Char) : Nat :=
  ds.foldl (fun n c => n * 10 + (c.toNat - 48)) 0

/-- An unsigned decimal literal — digits, optionally a decimal point and
fraction digits, at least one digit overall — as a rational; `none` for
anything else. -/
def parseUnsignedDecimal (cs : List Char) : Option ℚ :=
  let intDigits := cs.takeWhile Char.isDigit
  let rest := cs.dropWhile Char.isDigit
  match rest with
  | [] =>
      if intDigits.isEmpty then none
      else some (mkRat (digitsVal intDigits) 1)
  | '.' :: rest2 =>
      let fracDigits := rest2.takeWhile Char.isDigit
      let rest3 := rest2.dropWhile Char.isDigit
      if rest3.isEmpty && !(intDigits.isEmpty && fracDigits.isEmpty) then
        some (mkRat (digitsVal intDigits * 10 ^ fracDigits.length + digitsVal fracDigits)
          (10 ^ fracDigits.length))
      else none
  | _ => none

/-- Model of the JavaScript `Number()` coercion as used on `req.query`
values: `Number(undefined)` is NaN (`none`); a string is trimmed, an empty
remainder is `0`, an optionally signed decimal literal is its rational
value, and any other string is NaN.  (Exponent and radix-prefixed literals
are outside the modelled fragment.) -/
def jsToNumber : Option String → Option ℚ
  | none => none
  | some s =>
      let t := jsTrim s.data
      if t.isEmpty then some 0
      else
        match t with
        | '-' :: cs => (parseUnsignedDecimal cs).map (fun q => -q)
        | '+' :: cs => parseUnsignedDecimal cs
        | cs => parseUnsignedDecimal cs

/-- `parsePage`: `Number(value)` when `Number.isInteger(page) && page > 0`
(a rational with denominator `1`, positive; NaN fails the test), else the
default `1`. -/
def parsePage (value : Option String) : ℚ :=
  match jsToNumber value with
  | some page => if page.den = 1 ∧ 0 < page then page else 1
  | none => 1

/-- `parsePageSize`: as `parsePage` with default `9`. -/
def parsePageSize (value : Option String) : ℚ :=
  match jsToNumber value with
  | some size => if size.den = 1 ∧ 0 < size then size else 9
  | none => 9

/-- C9: for every input (a string or the absent value), `parsePage` and
`parsePageSize` return the parsed number exactly when it is a positive
integer, and fall back to the defaults `1` and `9` respectively otherwise
— non-numeric, non-positive and non-integer inputs all take the fallback,
as the concrete battery illustrates. -/
theorem parsePagination_defaults (v : Option String) :
    (∀ k : ℤ, 0 < k → jsToNumber v = some (k : ℚ) →
      parsePage v = (k : ℚ) ∧ parsePageSize v = (k : ℚ)) ∧
    ((∀ k : ℤ, 0 < k → jsToNumber v ≠ some (k : ℚ)) →
      parsePage v = 1 ∧ parsePageSize v = 9) ∧
    (parsePage (some "3") = 3 ∧ parsePageSize (some "12") = 12 ∧
     parsePage (some "2.5") = 1 ∧ parsePageSize (some "2.5") = 9 ∧
     parsePage (some "-2") = 1 ∧ parsePageSize (some "0") = 9 ∧
     parsePage (some "abc") = 1 ∧ parsePage (some "") = 1 ∧
     parsePage none = 1 ∧ parsePageSize none = 9 ∧
     parsePage (some " 7 ") = 7 ∧ parsePage (some "4.0") = 4) := by
  refine ⟨?_, ?_, by decide⟩
  · intro k hk heq
    have hden : ((k : ℚ)).den = 1 := Rat.den_intCast k
    have hpos : (0 : ℚ) < (k : ℚ) := by exact_mod_cast hk
    simp only [parsePage, parsePageSize, heq]
    rw [if_pos ⟨hden, hpos⟩, if_pos ⟨hden, hpos⟩]
    exact ⟨rfl, rfl⟩
  · intro hne
    cases hj : jsToNumber v with
    | none => simp [parsePage, parsePageSize, hj]
    | some q =>
        have hcond : ¬(q.den = 1 ∧ 0 < q) := by
          rintro ⟨hden, hpos⟩
          have hq : ((q.num : ℤ) : ℚ) = q := by
            rw [← Rat.den_eq_one_iff]
            exact hden
          have hknum : 0 < q.num := Rat.num_pos.2 hpos
          exact hne q.num hknum (by rw [hq]; exact hj)
        simp only [parsePage, parsePageSize, hj]
        rw [if_neg hcond, if_neg hcond]
        exact ⟨rfl, rfl⟩

/-- C9 (witness): the theorem applied at the concrete input `"3"`,
discharging the positive-integer hypotheses there. -/
theorem parsePagination_defaults_witness :
    (0 : ℤ) < 3 ∧ jsToNumber (some "3") = some ((3 : ℤ) : ℚ) ∧
    parsePage (some "3") = ((3 : ℤ) : ℚ) ∧
    parsePageSize (some "3") = ((3 : ℤ) : ℚ) := by
  have h := (parsePagination_defaults (some "3")).1 3 (by decide) (by decide)
  exact ⟨by decide, by decide, h.1, h.2⟩

end Backend

/-! ## Backend: user registration (`user-service.ts`, identical logic in
both backend variants) -/

namespace Backend

/-- A stored user document (`models/user-model.ts`). -/
structure IUserModel where
  _id : String
  firstName : String
  lastName : String
  email : String
  password : String
  roleId : Nat
  deriving DecidableEq, Repr

/-- `register`: schema validation, the password-presence check, the
duplicate-email count, then — unconditionally — `user.roleId = Role.User`,
password hashing, and `user.save()`.  Returns the new database state and
the saved document (from which the JWT is generated). -/
def register (schemaOk : Bool) (hash : String → String) (db : List IUserModel)
    (user : IUserModel) : Except ClientError (List IUserModel × IUserModel) :=
  if schemaOk = false then .error (.validationError "schema validation failed")
  else if user.password = "" then .error (.validationError "Password is required")
  else if 0 < (db.filter (fun u => u.email == user.email)).length then
    .error (.validationError "Email already taken")
  else
    let toSave := { user with roleId := RoleUser, password := hash user.password }
    .ok (db ++ [toSave], toSave)

/-- C10: whenever `register` succeeds, the persisted user's `roleId` is
`Role.User` — regardless of the role supplied in the registration payload
— the new database is the old one plus that user, and hence every user in
it either was already stored or has role `Role.User`: a client cannot
create an Admin-role account through registration. -/
theorem register_forces_user_role (schemaOk : Bool) (hash : String → String)
    (db : List IUserModel) (user : IUserModel) (db2 : List IUserModel)
    (saved : IUserModel)
    (h : register schemaOk hash db user = .ok (db2, saved)) :
    saved.roleId = RoleUser ∧ db2 = db ++ [saved] ∧
    ∀ u ∈ db2, u ∈ db ∨ u.roleId = RoleUser := by
  unfold register at h
  split_ifs at h with h1 h2 h3
  simp only [Except.ok.injEq, Prod.mk.injEq] at h
  obtain ⟨hdb, hsaved⟩ := h
  subst hsaved hdb
  refine ⟨rfl, rfl, ?_⟩
  intro u hu
  rcases List.mem_append.1 hu with hmem | hmem
  · exact Or.inl hmem
  · right
    rw [List.mem_singleton.1 hmem]

/-- A registration payload that claims the Admin role. -/
def adminPayload : IUserModel :=
  { _id := "u1", firstName := "Eve", lastName := "Adamson",
    email := "eve@example.com", password := "pw", roleId := RoleAdmin }

/-- C10 (witness): registering a payload that claims `Role.Admin` against
an empty database succeeds and stores the user with `Role.User`. -/
theorem register_forces_user_role_witness :
    adminPayload.roleId = RoleAdmin ∧
    register true (fun s => s ++ "#h") [] adminPayload =
      .ok ([{ adminPayload with roleId := RoleUser, password := "pw#h" }],
        { adminPayload with roleId := RoleUser, password := "pw#h" }) ∧
    ({ adminPayload with roleId := RoleUser, password := "pw#h" } :
      IUserModel).roleId = RoleUser := by
  refine ⟨rfl, by rfl, ?_⟩
  exact (register_forces_user_role true (fun s => s ++ "#h") [] adminPayload
    [{ adminPayload with roleId := RoleUser, password := "pw#h" }]
    { adminPayload with roleId := RoleUser, password := "pw#h" } (by rfl)).1

end Backend
